import Mathlib

/-!
# Verification of the profile-scoped provider storage and encryption layer

Shallow embedding of the repository's storage core:
* the Encryption Utility (`encrypt` / `decrypt`, modelled from the spec,
  since only its importers are part of the sources),
* the `LocalStorageProvider` CRUD facade (`local-storage-provider.ts`),
* the Settings Orchestration Layer (`ai-settings-context.tsx`),
* the Migration Adapter (`LocalStorageMigration` in `backup-restore.ts`).

Buckets (`ai-profiles`, `ai-providers`, `ai-metadata`) are modelled as
association lists keyed by strings, mirroring JS `Record<string, T>` objects
(key uniqueness, in-place replacement on assignment, `delete` by key).
`Date.now()` and `crypto.randomUUID()` are passed in explicitly as `now` /
fresh-id parameters.  Promises never suspend in the source (all storage is
synchronous), so each operation is a pure state transformer; thrown errors
become `Except` values.
-/

namespace CodelessShipMore

/-! ## Encryption Utility

Modelled from the spec: the module `@/lib/ai/encryption` is imported by the
orchestration layer but its source is not part of the repository snapshot.
The spec says: AES-GCM (256-bit) with a fixed application-wide key and a
fresh random IV per call; `encrypt(plaintext) -> {iv, data}` with both
fields text-encoded; `decrypt` reverses it with the same fixed key and the
supplied IV and fails on corrupted ciphertext.  We model the cipher at the
byte level: a keystream derived from the fixed key and the IV is XOR-ed
over the plaintext bytes (abstracting the AES-CTR core of GCM) and a
16-byte authentication tag is appended (GCM's 128-bit tag); `decrypt`
checks the tag and errors when it does not match.  The base64 text
encoding of the two fields is abstracted as the identity on byte
sequences (base64 is a bijection onto its image), so the blob stores the
underlying bytes.  Randomness of the IV is modelled by passing the IV as
an explicit argument to `encrypt`. -/

/-- The `{iv, data}` pair in which an API key is persisted; fields hold the
byte sequences underlying the base64 text encoding. -/
structure EncryptedData where
  iv : List Nat
  data : List Nat
deriving Repr, DecidableEq

/-- Modelled from the spec: the fixed application-wide symmetric key
(a hard-coded constant in the original design). -/
def FIXED_KEY : Nat := 83

/-- Modelled from the spec: keystream byte at position `i` for a given IV,
abstracting the AES-CTR keystream of AES-GCM. -/
def keystream (iv : List Nat) (i : Nat) : Nat :=
  (iv.foldl (· + ·) 0 + FIXED_KEY * (i + 1)) % 256

/-- XOR a byte list against the keystream, starting at position `i`. -/
def xorKS (iv : List Nat) : Nat → List Nat → List Nat
  | _, [] => []
  | i, b :: bs => (b ^^^ keystream iv i) :: xorKS iv (i + 1) bs

/-- Modelled from the spec: the 16-byte (128-bit) GCM authentication tag
over the ciphertext. -/
def authTag (iv ct : List Nat) : List Nat :=
  List.replicate 16 ((ct.foldl (· + ·) 0 + iv.foldl (· + ·) 0 + FIXED_KEY) % 256)

/-- The text-to-bytes encoding applied to plaintext before encryption
(abstracting `TextEncoder`): the code point of each character. -/
def strBytes (s : String) : List Nat := s.data.map Char.toNat

/-- Inverse of `strBytes` on its image. -/
def bytesStr (l : List Nat) : String := String.mk (l.map Char.ofNat)

/-- Modelled from the spec: `encrypt(plaintext) -> EncryptedBlob` with a
caller-supplied fresh IV (randomness modelled as an input). -/
def encrypt (iv : List Nat) (plaintext : String) : EncryptedData :=
  let ct := xorKS iv 0 (strBytes plaintext)
  ⟨iv, ct ++ authTag iv ct⟩

/-- Modelled from the spec: `decrypt(blob) -> string`, failing with a
`DecryptionError` when the ciphertext is corrupted (tag mismatch or
truncated data). -/
def decrypt (blob : EncryptedData) : Except String String :=
  if blob.data.length < 16 then .error "DecryptionError"
  else
    let ct := blob.data.take (blob.data.length - 16)
    let tag := blob.data.drop (blob.data.length - 16)
    if tag = authTag blob.iv ct then .ok (bytesStr (xorKS blob.iv 0 ct))
    else .error "DecryptionError"

/-! ## Buckets: JS `Record<string, T>` objects

Each localStorage bucket is a JSON object mapping record IDs to records.
We model it as an association list with unique keys; `obj[k] = v` replaces
in place or appends (`Bucket.upsert`), `delete obj[k]` removes the key
(`Bucket.erase`), `obj[k]` looks up (`Bucket.find?`), `Object.values`
lists values in insertion order (`Bucket.values`). -/

/-- A JS `Record<string, α>` object. -/
abbrev Bucket (α : Type) := List (String × α)

namespace Bucket

/-- Lookup `obj[k]`, `undefined` becoming `none`. -/
def find? (k : String) : Bucket α → Option α
  | [] => none
  | e :: rest => if e.1 = k then some e.2 else find? k rest

/-- Assignment `obj[k] = v`: replace in place if the key exists, else append. -/
def upsert (k : String) (v : α) : Bucket α → Bucket α
  | [] => [(k, v)]
  | e :: rest => if e.1 = k then (k, v) :: rest else e :: upsert k v rest

/-- Deletion `delete obj[k]`. -/
def erase (k : String) (b : Bucket α) : Bucket α := b.filter (fun e => e.1 ≠ k)

/-- Enumeration `Object.values(obj)`. -/
def values (b : Bucket α) : List α := b.map (·.2)

/-- Key uniqueness, as JS objects have it by construction. -/
def WF (b : Bucket α) : Prop := (b.map (·.1)).Nodup

end Bucket

/-! ## Data model (`types.ts`) -/

inductive ProviderType where
  | builtin
  | custom
deriving Repr, DecidableEq

/-- Record `ProfileRecord` from `types.ts`: `description?` is an optional field. -/
structure ProfileRecord where
  id : String
  name : String
  description : Option String
  createdAt : Nat
  updatedAt : Nat
  isDefault : Bool
deriving Repr, DecidableEq

/-- Record `ProviderConfigRecord` from `types.ts`. -/
structure ProviderConfigRecord where
  id : String
  profileId : String
  providerId : String
  providerType : ProviderType
  apiKey : Option EncryptedData
  model : String
  baseUrl : Option String
  enabled : Bool
  customName : Option String
  customModels : Option (List String)
  createdAt : Nat
  updatedAt : Nat
deriving Repr, DecidableEq

/-- A metadata value (`value: unknown` in the source; the values actually
stored are the schema version number and the active profile id string). -/
inductive MetaValue where
  | num (n : Nat)
  | str (s : String)
deriving Repr, DecidableEq

/-- Record `AppMetadata` from `types.ts`. -/
structure AppMetadata where
  key : String
  value : MetaValue
  updatedAt : Nat
deriving Repr, DecidableEq

/-- Input `CreateProfileInput` from `types.ts`. -/
structure CreateProfileInput where
  name : String
  description : Option String
deriving Repr, DecidableEq

/-- Input `CustomProviderInput` from `types.ts` (the `apiKeyPlaceholder` field is
never read by the code under verification and is omitted). -/
structure CustomProviderInput where
  name : String
  baseUrl : String
  models : List String
deriving Repr, DecidableEq

/-- The three localStorage buckets (`ai-profiles`, `ai-providers`,
`ai-metadata`) parsed into `LocalStorageData`. -/
structure LocalStorageData where
  profiles : Bucket ProfileRecord
  providers : Bucket ProviderConfigRecord
  metadata : Bucket AppMetadata
deriving Repr, DecidableEq

/-- The empty store: no bucket has been written yet, each parses to `{}`. -/
def emptyData : LocalStorageData := ⟨[], [], []⟩

/-- Errors thrown by the storage layer.  The source throws plain `Error`
objects with distinct messages; the spec's taxonomy calls
`"Profile ... not found"` / `"Provider config ... not found"` a
`NotFoundError` and `"Cannot delete default profile"` an
`InvalidOperationError`, and we name the constructors accordingly while
keeping the source's message. -/
inductive StorageErr where
  | notFound (msg : String)
  | invalidOperation (msg : String)
deriving Repr, DecidableEq

/-! ## LocalStorageProvider (`local-storage-provider.ts`)

Each method reads the whole store, transforms it and writes back; we model
it as a pure function on `LocalStorageData`.  `Date.now()` is the `now`
argument and `crypto.randomUUID()` the `freshId` argument. -/

namespace LocalStorageProvider

/-- Method `createProfile`: trims and truncates the name to 50 characters, assigns
a fresh id and timestamps, `isDefault = false`, persists. -/
def createProfile (input : CreateProfileInput) (now : Nat) (freshId : String)
    (st : LocalStorageData) : ProfileRecord × LocalStorageData :=
  let profile : ProfileRecord :=
    { id := freshId
      name := input.name.trim.take 50
      description := input.description.map String.trim
      createdAt := now
      updatedAt := now
      isDefault := false }
  (profile, { st with profiles := st.profiles.upsert profile.id profile })

/-- A partial profile update, `Partial<Omit<ProfileRecord, "id" | "createdAt">>`.
`none` means the key is absent from the object.  The `id` and `createdAt`
fields model rogue properties a caller could smuggle past the type system
at runtime; the implementation overrides them after the spread. -/
structure ProfileUpdate where
  id : Option String := none
  name : Option String := none
  description : Option (Option String) := none
  updatedAt : Option Nat := none
  isDefault : Option Bool := none
  createdAt : Option Nat := none
deriving Repr, DecidableEq

/-- The spread `{...existing, ...data}`: fields present in `data` win. -/
def spreadProfile (existing : ProfileRecord) (u : ProfileUpdate) : ProfileRecord :=
  { id := u.id.getD existing.id
    name := u.name.getD existing.name
    description := u.description.getD existing.description
    createdAt := u.createdAt.getD existing.createdAt
    updatedAt := u.updatedAt.getD existing.updatedAt
    isDefault := u.isDefault.getD existing.isDefault }

/-- Method `updateProfile`: merges the partial over the existing record, forces
`id`/`createdAt` back to the existing values, bumps `updatedAt`,
persists; `NotFoundError` when the id is unknown. -/
def updateProfile (id : String) (u : ProfileUpdate) (now : Nat)
    (st : LocalStorageData) : Except StorageErr (ProfileRecord × LocalStorageData) :=
  match st.profiles.find? id with
  | none => .error (.notFound s!"Profile {id} not found")
  | some existing =>
    let updated : ProfileRecord :=
      { spreadProfile existing u with
        id := existing.id
        createdAt := existing.createdAt
        updatedAt := now }
    .ok (updated, { st with profiles := st.profiles.upsert id updated })

/-- Method `deleteProfile`: refuses to delete the default profile (before any
write); otherwise deletes all provider configs whose `profileId` matches,
then the profile itself. -/
def deleteProfile (id : String) (st : LocalStorageData) :
    Except StorageErr LocalStorageData :=
  match st.profiles.find? id with
  | none => .error (.notFound s!"Profile {id} not found")
  | some profile =>
    if profile.isDefault then .error (.invalidOperation "Cannot delete default profile")
    else
      .ok { st with
            providers := st.providers.filter (fun e => ¬ (e.2.profileId = id))
            profiles := st.profiles.erase id }

/-- Method `getProfile`: direct lookup, `null` when absent. -/
def getProfile (id : String) (st : LocalStorageData) : Option ProfileRecord :=
  st.profiles.find? id

/-- Method `getAllProfiles`: `Object.values` of the profiles bucket. -/
def getAllProfiles (st : LocalStorageData) : List ProfileRecord :=
  st.profiles.values

/-- Method `saveProfile`: writes the given record verbatim under its id. -/
def saveProfile (profile : ProfileRecord) (st : LocalStorageData) :
    ProfileRecord × LocalStorageData :=
  (profile, { st with profiles := st.profiles.upsert profile.id profile })

/-- Method `getDefaultProfile`: returns the first profile with `isDefault = true`;
if none exists, creates one named "Default" and persists it. -/
def getDefaultProfile (now : Nat) (freshId : String) (st : LocalStorageData) :
    ProfileRecord × LocalStorageData :=
  match st.profiles.values.find? (·.isDefault) with
  | some profile => (profile, st)
  | none =>
    let defaultProfile : ProfileRecord :=
      { id := freshId
        name := "Default"
        description := none
        createdAt := now
        updatedAt := now
        isDefault := true }
    (defaultProfile,
     { st with profiles := st.profiles.upsert defaultProfile.id defaultProfile })

/-- Input type `Omit<ProviderConfigRecord, "id" | "createdAt" | "updatedAt">`, the
input to `saveProviderConfig`.  All call sites pass the first seven fields
explicitly; `customName`/`customModels` are present only at some call
sites, so they are doubly optional: the outer `none` means the key is
absent from the object literal (the spread then keeps the existing
value), `some v` means the key is present with value `v`. -/
structure ProviderConfigInput where
  profileId : String
  providerId : String
  providerType : ProviderType
  apiKey : Option EncryptedData
  model : String
  baseUrl : Option String
  enabled : Bool
  customName : Option (Option String) := none
  customModels : Option (Option (List String)) := none
deriving Repr, DecidableEq

/-- The composite key `profileId:providerId`. -/
def compositeKey (profileId providerId : String) : String :=
  profileId ++ ":" ++ providerId

/-- Method `saveProviderConfig`: upsert by composite key.  If the key exists the
spread `{...existing, ...config, updatedAt: now}` keeps `id`/`createdAt`
and overwrites the config fields; otherwise a new record gets a fresh id
and both timestamps. -/
def saveProviderConfig (cfg : ProviderConfigInput) (now : Nat) (freshId : String)
    (st : LocalStorageData) : ProviderConfigRecord × LocalStorageData :=
  let key := compositeKey cfg.profileId cfg.providerId
  let record : ProviderConfigRecord :=
    match st.providers.find? key with
    | some existing =>
      { id := existing.id
        profileId := cfg.profileId
        providerId := cfg.providerId
        providerType := cfg.providerType
        apiKey := cfg.apiKey
        model := cfg.model
        baseUrl := cfg.baseUrl
        enabled := cfg.enabled
        customName := cfg.customName.getD existing.customName
        customModels := cfg.customModels.getD existing.customModels
        createdAt := existing.createdAt
        updatedAt := now }
    | none =>
      { id := freshId
        profileId := cfg.profileId
        providerId := cfg.providerId
        providerType := cfg.providerType
        apiKey := cfg.apiKey
        model := cfg.model
        baseUrl := cfg.baseUrl
        enabled := cfg.enabled
        customName := cfg.customName.getD none
        customModels := cfg.customModels.getD none
        createdAt := now
        updatedAt := now }
  (record, { st with providers := st.providers.upsert key record })

/-- Method `getProviderConfigsByProfile`: linear filter of the bucket values. -/
def getProviderConfigsByProfile (profileId : String) (st : LocalStorageData) :
    List ProviderConfigRecord :=
  st.providers.values.filter (fun c => c.profileId = profileId)

/-- Method `getProviderConfig`: direct composite-key lookup. -/
def getProviderConfig (profileId providerId : String) (st : LocalStorageData) :
    Option ProviderConfigRecord :=
  st.providers.find? (compositeKey profileId providerId)

/-- Method `deleteProviderConfig`: throws `NotFoundError` when the key is absent. -/
def deleteProviderConfig (id : String) (st : LocalStorageData) :
    Except StorageErr LocalStorageData :=
  match st.providers.find? id with
  | none => .error (.notFound s!"Provider config {id} not found")
  | some _ => .ok { st with providers := st.providers.erase id }

/-- Method `setMetadata`: stores `{key, value, updatedAt}` under `key`. -/
def setMetadata (key : String) (value : MetaValue) (now : Nat)
    (st : LocalStorageData) : LocalStorageData :=
  { st with metadata := st.metadata.upsert key ⟨key, value, now⟩ }

/-- Method `getMetadata`: the stored value, `undefined` becoming `none`. -/
def getMetadata (key : String) (st : LocalStorageData) : Option MetaValue :=
  (st.metadata.find? key).map (·.value)

/-- Method `getSchemaVersion`: the `schema_version` metadata if it is a number,
`0` otherwise. -/
def getSchemaVersion (st : LocalStorageData) : Nat :=
  match getMetadata "schema_version" st with
  | some (.num n) => n
  | _ => 0

/-- Method `setSchemaVersion`. -/
def setSchemaVersion (version : Nat) (now : Nat) (st : LocalStorageData) :
    LocalStorageData :=
  setMetadata "schema_version" (.num version) now st

end LocalStorageProvider

/-! ## Settings Orchestration Layer (`ai-settings-context.tsx`)

React state is modelled as an explicit `OrchState`; each context method is
a state transformer.  UI-only mirrors (`profiles`, `profilesWithProviders`)
are recomputed views of the storage and are not part of the state the
claims concern. -/

/-- Fields of `ProviderDefinition` (`providers.ts`) read by the code under
verification. -/
structure ProviderDefinition where
  id : String
  name : String
  defaultModel : String
  fixedBaseUrl : Option String
deriving Repr, DecidableEq

/-- The builtin provider table `PROVIDERS` from `providers.ts`. -/
def PROVIDERS : Bucket ProviderDefinition :=
  [("openai", ⟨"openai", "OpenAI", "gpt-4o-mini", none⟩),
   ("anthropic", ⟨"anthropic", "Anthropic (Claude)", "claude-sonnet-4-20250514", none⟩),
   ("google", ⟨"google", "Google (Gemini)", "gemini-3-flash-preview",
     some "https://generativelanguage.googleapis.com/v1beta/openai"⟩),
   ("anthropic-custom", ⟨"anthropic-custom", "Claude (Custom Endpoint)",
     "claude-sonnet-4-20250514", none⟩),
   ("cerebras", ⟨"cerebras", "Cerebras", "llama-3.3-70b", some "https://api.cerebras.ai/v1"⟩)]

/-- An in-memory provider entry of `settings.providers`
(`ProviderConfig & {providerType, customName?, customModels?}`). -/
structure OrchProvider where
  id : String
  apiKey : String
  model : String
  baseUrl : Option String
  enabled : Bool
  providerType : ProviderType
  customName : Option String := none
  customModels : Option (List String) := none
deriving Repr, DecidableEq

/-- The orchestration layer's React state: current profile, the in-memory
`settings` mirror, the enabled-provider list and the in-memory
encrypted-key cache `encryptedKeys`, plus the persisted store. -/
structure OrchState where
  currentProfile : Option ProfileRecord
  settingsProfileId : String
  providers : Bucket OrchProvider
  enabledProviders : List String
  encryptedKeys : Bucket EncryptedData
  storage : LocalStorageData
deriving Repr, DecidableEq

namespace Orch

open LocalStorageProvider

/-- The per-config body of the load loop in `loadProviderConfigs`: custom
configs map directly; builtin configs take defaults from `PROVIDERS` and
unknown builtin ids are skipped (`continue`). -/
def orchOfConfig (c : ProviderConfigRecord) : Option OrchProvider :=
  match c.providerType with
  | .custom =>
    some { id := c.providerId, apiKey := "", model := c.model, baseUrl := c.baseUrl,
           enabled := c.enabled, providerType := .custom,
           customName := c.customName, customModels := c.customModels }
  | .builtin =>
    match PROVIDERS.find? c.providerId with
    | none => none
    | some providerDef =>
      some { id := c.providerId, apiKey := "",
             model := if c.model = "" then providerDef.defaultModel else c.model,
             baseUrl := c.baseUrl, enabled := c.enabled, providerType := .builtin }

/-- One iteration of the load loop: accumulates the providers map, the
enabled list and the encrypted-key cache. -/
def loadStep (acc : Bucket OrchProvider × List String × Bucket EncryptedData)
    (c : ProviderConfigRecord) :
    Bucket OrchProvider × List String × Bucket EncryptedData :=
  match orchOfConfig c with
  | none => acc
  | some p =>
    (acc.1.upsert c.providerId p,
     if c.enabled then acc.2.1 ++ [c.providerId] else acc.2.1,
     match c.apiKey with
     | some blob => acc.2.2.upsert c.providerId blob
     | none => acc.2.2)

/-- Method `loadProviderConfigs(profileId)`: reads the profile's configs
fresh from storage, rebuilds `settings`, `enabledProviders` and the key
cache from scratch (decrypting nothing), and records the active profile
id in metadata. -/
def loadProviderConfigs (profileId : String) (now : Nat) (st : OrchState) : OrchState :=
  let configs := getProviderConfigsByProfile profileId st.storage
  let acc := configs.foldl loadStep ([], [], [])
  { st with
    settingsProfileId := profileId
    providers := acc.1
    enabledProviders := acc.2.1
    encryptedKeys := acc.2.2
    storage := setMetadata "active_profile_id" (.str profileId) now st.storage }

/-- A partial in-memory provider config, `Partial<ProviderConfig>`;
`none` means the key is absent. -/
structure ProviderUpdate where
  id : Option String := none
  apiKey : Option String := none
  baseUrl : Option String := none
  model : Option String := none
  enabled : Option Bool := none
deriving Repr, DecidableEq

/-- Method `updateProvider(id, config)`: encrypts a non-empty `apiKey`
before persisting and before updating the key cache; persists via
`saveProviderConfig` with `config.model || existing.model`,
`config.baseUrl || existing.baseUrl` and
`config.enabled !== undefined ? config.enabled : existing.enabled`;
then mirrors the spread `{...existing, ...config}` into `settings` and
maintains the enabled list. -/
def updateProvider (id : String) (cfg : ProviderUpdate) (iv : List Nat) (now : Nat)
    (freshId : String) (st : OrchState) : Except String OrchState :=
  match st.currentProfile with
  | none => .error "No current profile"
  | some currentProfile =>
    match st.providers.find? id with
    | none => .error s!"Provider {id} not found"
    | some existing =>
      let hasNewKey : Bool := match cfg.apiKey with
        | some k => k ≠ ""
        | none => false
      let encryptedKey : Option EncryptedData :=
        if hasNewKey then some (encrypt iv (cfg.apiKey.getD ""))
        else st.encryptedKeys.find? id
      let keyCache :=
        if hasNewKey then st.encryptedKeys.upsert id (encrypt iv (cfg.apiKey.getD ""))
        else st.encryptedKeys
      let saved := saveProviderConfig
        { profileId := currentProfile.id
          providerId := id
          providerType := existing.providerType
          apiKey := encryptedKey
          model := match cfg.model with
            | some m => if m = "" then existing.model else m
            | none => existing.model
          baseUrl := match cfg.baseUrl with
            | some b => if b = "" then existing.baseUrl else some b
            | none => existing.baseUrl
          enabled := cfg.enabled.getD existing.enabled }
        now freshId st.storage
      let newProv : OrchProvider :=
        { existing with
          id := cfg.id.getD existing.id
          apiKey := cfg.apiKey.getD existing.apiKey
          baseUrl := match cfg.baseUrl with
            | some b => some b
            | none => existing.baseUrl
          model := cfg.model.getD existing.model
          enabled := cfg.enabled.getD existing.enabled }
      let newEnabled := match cfg.enabled with
        | none => st.enabledProviders
        | some true => st.enabledProviders ++ [id]
        | some false => st.enabledProviders.filter (fun p => p ≠ id)
      .ok { st with
            providers := st.providers.upsert id newProv
            enabledProviders := newEnabled
            encryptedKeys := keyCache
            storage := saved.2 }

/-- Method `getDecryptedApiKey(id)`: decrypts on demand from the key
cache; on a cache miss returns `settings.providers[id]?.apiKey || ""`;
a decryption failure is caught and becomes the empty string. -/
def getDecryptedApiKey (id : String) (st : OrchState) : String :=
  match st.encryptedKeys.find? id with
  | none =>
    match st.providers.find? id with
    | some p => p.apiKey
    | none => ""
  | some blob =>
    match decrypt blob with
    | .ok s => s
    | .error _ => ""

/-- Method `createCustomProvider(input)`: generates
`custom-<crypto.randomUUID()>` and saves a disabled, keyless config with
`model = input.models[0] || ""` — with no validation of `baseUrl` or
`models` — then reloads the current profile's configs. -/
def createCustomProvider (input : CustomProviderInput) (uuid : String) (now : Nat)
    (freshId : String) (st : OrchState) : Except String OrchState :=
  match st.currentProfile with
  | none => .error "No current profile"
  | some currentProfile =>
    let providerId := "custom-" ++ uuid
    let saved := saveProviderConfig
      { profileId := currentProfile.id
        providerId := providerId
        providerType := .custom
        apiKey := none
        model := input.models.headD ""
        baseUrl := some input.baseUrl
        enabled := false
        customName := some (some input.name)
        customModels := some (some input.models) }
      now freshId st.storage
    .ok (loadProviderConfigs currentProfile.id now { st with storage := saved.2 })

/-- Model of the JS built-in `String.prototype.trim`: strip leading and
trailing whitespace (structural recursion over the character list, so
proofs can evaluate it). -/
def jsTrim (s : String) : String :=
  String.mk (((s.data.dropWhile Char.isWhitespace).reverse.dropWhile
    Char.isWhitespace).reverse)

/-- Helper for `jsSplit`: accumulate the current chunk (reversed). -/
def jsSplitAux (sep : Char) : List Char → List Char → List String
  | [], acc => [String.mk acc.reverse]
  | c :: rest, acc =>
    if c = sep then String.mk acc.reverse :: jsSplitAux sep rest []
    else jsSplitAux sep rest (c :: acc)

/-- Model of the JS built-in `String.prototype.split` with a one-character
separator. -/
def jsSplit (sep : Char) (s : String) : List String := jsSplitAux sep s.data []

/-- Model of the JS built-in `String.prototype.startsWith`. -/
def jsStartsWith (s pre : String) : Bool := pre.data.isPrefixOf s.data

/-- Handler `handleCreateCustomProvider` from `login-dialog.tsx`: requires
non-blank name and base URL, parses the URL (`urlParseOk` models whether
`new URL(...)` succeeded), requires the trimmed URL to start with
`https://`, parses the comma-separated model list and requires it
non-empty, and only then calls `createCustomProvider`; every failed check
(and any thrown error) returns with the state unchanged. -/
def handleCreateCustomProvider (nameRaw baseUrlRaw modelsRaw : String)
    (urlParseOk : Bool) (uuid : String) (now : Nat) (freshId : String)
    (st : OrchState) : OrchState :=
  if jsTrim nameRaw = "" ∨ jsTrim baseUrlRaw = "" then st
  else if ¬ urlParseOk then st
  else if ¬ (jsStartsWith (jsTrim baseUrlRaw) "https://") then st
  else
    let models := ((jsSplit ',' modelsRaw).map jsTrim).filter (fun m => m ≠ "")
    if models = [] then st
    else
      match createCustomProvider ⟨jsTrim nameRaw, jsTrim baseUrlRaw, models⟩ uuid now freshId st with
      | .ok st' => st'
      | .error _ => st

end Orch

/-! ## Migration Adapter (`LocalStorageMigration`)

The adapter copies the prior-generation IndexedDB database into
localStorage.  IndexedDB reads go through async callbacks that can fail;
we model the legacy database as a record of `Except`-valued reads
(`.error` = the read rejected), with `none` standing for `ProviderDB`
being `null` (IndexedDB unavailable).  localStorage writes are the pure
provider operations; write failures (quota) are not modelled. -/

/-- The legacy IndexedDB database as seen through `ProviderDB`. -/
structure IDBModel where
  profiles : Except String (List ProfileRecord)
  configsByProfile : String → Except String (List ProviderConfigRecord)
  activeProfileId : Except String (Option MetaValue)
  schemaVersion : Except String Nat

namespace Migration

open LocalStorageProvider

/-- JS truthiness of the metadata values we model. -/
def MetaValue.truthy : MetaValue → Bool
  | .num n => n ≠ 0
  | .str s => s ≠ ""

/-- Method `isMigrationNeeded`: `false` once the localStorage schema
version is at least 2; when IndexedDB is absent or holds no profiles,
stamps version 2 and answers `false`; a failing IndexedDB read is caught
and answers `false`; otherwise `true`. -/
def isMigrationNeeded (idb : Option IDBModel) (now : Nat) (st : LocalStorageData) :
    Bool × LocalStorageData :=
  if getSchemaVersion st ≥ 2 then (false, st)
  else
    match idb with
    | none => (false, setSchemaVersion 2 now st)
    | some db =>
      match db.profiles with
      | .error _ => (false, st)
      | .ok profiles =>
        if profiles.length = 0 then (false, setSchemaVersion 2 now st)
        else (true, st)

/-- The `saveProviderConfig` argument built by the migration loop: the
`customName`/`customModels` keys are present in the literal (their value
may be `undefined`). -/
def inputOfRecord (c : ProviderConfigRecord) : ProviderConfigInput :=
  { profileId := c.profileId
    providerId := c.providerId
    providerType := c.providerType
    apiKey := c.apiKey
    model := c.model
    baseUrl := c.baseUrl
    enabled := c.enabled
    customName := some c.customName
    customModels := some c.customModels }

/-- The provider-config loop of `migrate`: for each profile, read its
legacy configs (a failing read aborts with the partial state kept) and
upsert each into localStorage.  The `Nat` component counts saved configs
and indexes the fresh-id supply `uuid`. -/
def migrateConfigs (db : IDBModel) (now : Nat) (uuid : Nat → String) :
    List ProfileRecord → Nat → LocalStorageData → Bool × Nat × LocalStorageData
  | [], idx, s => (true, idx, s)
  | p :: ps, idx, s =>
    match db.configsByProfile p.id with
    | .error _ => (false, idx, s)
    | .ok configs =>
      let folded := configs.foldl
        (fun (acc : Nat × LocalStorageData) c =>
          (acc.1 + 1, (saveProviderConfig (inputOfRecord c) now (uuid acc.1) acc.2).2))
        (idx, s)
      migrateConfigs db now uuid ps folded.1 folded.2

/-- The metadata block of `migrate`: copies `active_profile_id` when
truthy and the legacy schema version; it sits in an inner `try`/`catch`,
so a failing read skips the remainder of the block without aborting the
migration. -/
def migrateMetadata (db : IDBModel) (now : Nat) (s : LocalStorageData) :
    LocalStorageData :=
  match db.activeProfileId with
  | .error _ => s
  | .ok v =>
    let s1 := match v with
      | some mv => if MetaValue.truthy mv then setMetadata "active_profile_id" mv now s else s
      | none => s
    match db.schemaVersion with
    | .error _ => s1
    | .ok n => setMetadata "schema_version" (.num n) now s1

/-- Method `migrate`: copies all legacy profiles (`saveProfile`), then all
their provider configs (`saveProviderConfig`, upsert by composite key),
then the metadata, and only then stamps schema version 2; any failing
legacy read before the metadata block aborts with `success = false`,
leaving partial bucket writes in place but the schema version unwritten. -/
def migrate (idb : Option IDBModel) (now : Nat) (uuid : Nat → String)
    (st : LocalStorageData) : Bool × LocalStorageData :=
  match idb with
  | none => (false, st)
  | some db =>
    match db.profiles with
    | .error _ => (false, st)
    | .ok profiles =>
      let st1 := profiles.foldl (fun s p => (saveProfile p s).2) st
      match migrateConfigs db now uuid profiles 0 st1 with
      | (false, _, st2) => (false, st2)
      | (true, _, st2) =>
        let st3 := migrateMetadata db now st2
        (true, setSchemaVersion 2 now st3)

/-- The startup gate in `initializeData`: run `migrate` only when
`getMigrationStatus` reports `needsMigration` and a positive IndexedDB
item count (the count is the number of legacy profiles plus configs;
its exact value is irrelevant once `needsMigration` is `false`). -/
def runStartupMigration (idb : Option IDBModel) (now : Nat) (uuid : Nat → String)
    (idbItemCount : Nat) (st : LocalStorageData) : LocalStorageData :=
  let checked := isMigrationNeeded idb now st
  if checked.1 ∧ 0 < idbItemCount then (migrate idb now uuid checked.2).2
  else checked.2

end Migration

/-! ## Profile-operation sequences (for the exactly-one-default invariant) -/

/-- A storage-provider profile operation together with its environment
inputs (`Date.now()`, `crypto.randomUUID()`). -/
inductive ProfileOp where
  | create (input : CreateProfileInput) (now : Nat) (freshId : String)
  | update (id : String) (u : LocalStorageProvider.ProfileUpdate) (now : Nat)
  | delete (id : String)
  | getDefault (now : Nat) (freshId : String)
  | save (p : ProfileRecord)
deriving Repr

namespace ProfileOp

open LocalStorageProvider

/-- Apply one operation; a thrown error (rejected promise) leaves the
store unchanged. -/
def apply (st : LocalStorageData) : ProfileOp → LocalStorageData
  | .create input now freshId => (createProfile input now freshId st).2
  | .update id u now =>
    match updateProfile id u now st with
    | .ok r => r.2
    | .error _ => st
  | .delete id =>
    match deleteProfile id st with
    | .ok st' => st'
    | .error _ => st
  | .getDefault now freshId => (getDefaultProfile now freshId st).2
  | .save p => (saveProfile p st).2

/-- Run a sequence of operations from a starting store. -/
def run (st : LocalStorageData) (ops : List ProfileOp) : LocalStorageData :=
  ops.foldl apply st

/-- The number of profiles with `isDefault = true`. -/
def defaultCount (st : LocalStorageData) : Nat :=
  (LocalStorageProvider.getAllProfiles st).countP (·.isDefault)

/-- Operations that can write an arbitrary `isDefault` flag: `saveProfile`
(verbatim write) and `updateProfile` with `isDefault` in the partial. -/
def safe : ProfileOp → Prop
  | .save _ => False
  | .update _ u _ => u.isDefault = none
  | _ => True

end ProfileOp

/-! ## Reachability invariant of the orchestration state -/

/-- Cache consistency: whenever a provider has no entry in the in-memory
encrypted-key cache, its in-memory `apiKey` mirror is the empty string.
This holds after every load (`loadProviderConfigs` always mirrors
`apiKey: ""`) and is preserved by `updateProvider`. -/
def Orch.CacheConsistent (st : OrchState) : Prop :=
  ∀ id p, st.encryptedKeys.find? id = none →
    st.providers.find? id = some p → p.apiKey = ""

/-! ## Concrete fixtures used by witnesses and counterexamples -/

/-- A concrete default profile. -/
def sampleProfile : ProfileRecord :=
  { id := "p1", name := "Default", description := none,
    createdAt := 0, updatedAt := 0, isDefault := true }

/-- A concrete in-memory provider entry with no API key set. -/
def sampleProvider : OrchProvider :=
  { id := "openai", apiKey := "", model := "gpt-4o-mini", baseUrl := none,
    enabled := false, providerType := .builtin }

/-- A concrete orchestration state: one profile, one keyless openai entry. -/
def sampleState : OrchState :=
  { currentProfile := some sampleProfile
    settingsProfileId := "p1"
    providers := [("openai", sampleProvider)]
    enabledProviders := []
    encryptedKeys := []
    storage := { profiles := [("p1", sampleProfile)], providers := [], metadata := [] } }

/-- A concrete stored provider config for the legacy database. -/
def sampleConfig : ProviderConfigRecord :=
  { id := "c1", profileId := "p1", providerId := "openai", providerType := .builtin,
    apiKey := none, model := "gpt-4o", baseUrl := none, enabled := true,
    customName := none, customModels := none, createdAt := 0, updatedAt := 0 }

/-- A concrete legacy IndexedDB database whose reads all succeed. -/
def sampleIDB : IDBModel :=
  { profiles := .ok [sampleProfile]
    configsByProfile := fun pid => if pid = "p1" then .ok [sampleConfig] else .ok []
    activeProfileId := .ok (some (.str "p1"))
    schemaVersion := .ok 1 }

/-- A concrete legacy database whose provider-config reads reject. -/
def failingIDB : IDBModel :=
  { profiles := .ok [sampleProfile]
    configsByProfile := fun _ => .error "read rejected"
    activeProfileId := .error "read rejected"
    schemaVersion := .error "read rejected" }

/-! ## Lemma library -/

theorem xorKS_length (iv : List Nat) (i : Nat) (l : List Nat) :
    (xorKS iv i l).length = l.length := by
  induction l generalizing i with
  | nil => rfl
  | cons b bs ih => simp [xorKS, ih]

theorem xorKS_xorKS (iv : List Nat) (i : Nat) (l : List Nat) :
    xorKS iv i (xorKS iv i l) = l := by
  induction l generalizing i with
  | nil => rfl
  | cons b bs ih =>
    simp only [xorKS, ih]
    congr 1
    exact Nat.xor_cancel_right _ _

theorem bytesStr_strBytes (s : String) : bytesStr (strBytes s) = s := by
  cases s with
  | mk data =>
    simp only [bytesStr, strBytes, List.map_map]
    congr 1
    calc List.map (Char.ofNat ∘ Char.toNat) data
        = List.map id data := List.map_congr_left (fun c _ => Char.ofNat_toNat c)
      _ = data := List.map_id data

theorem authTag_length (iv ct : List Nat) : (authTag iv ct).length = 16 := by
  simp [authTag]

/-- Round-trip of the modelled cipher: decrypting an encrypted blob with the
fixed key recovers the plaintext, for every IV and every plaintext. -/
theorem decrypt_encrypt (iv : List Nat) (s : String) :
    decrypt (encrypt iv s) = .ok s := by
  unfold decrypt encrypt
  simp only [List.length_append, authTag_length, xorKS_length]
  have hlen : ¬ ((strBytes s).length + 16 < 16) := by omega
  rw [if_neg hlen]
  have htake : (xorKS iv 0 (strBytes s) ++ authTag iv (xorKS iv 0 (strBytes s))).take
      ((strBytes s).length + 16 - 16) = xorKS iv 0 (strBytes s) := by
    have : (strBytes s).length + 16 - 16 = (xorKS iv 0 (strBytes s)).length := by
      rw [xorKS_length]; omega
    rw [this, List.take_left]
  have hdrop : (xorKS iv 0 (strBytes s) ++ authTag iv (xorKS iv 0 (strBytes s))).drop
      ((strBytes s).length + 16 - 16) = authTag iv (xorKS iv 0 (strBytes s)) := by
    have : (strBytes s).length + 16 - 16 = (xorKS iv 0 (strBytes s)).length := by
      rw [xorKS_length]; omega
    rw [this, List.drop_left]
  rw [htake, hdrop, if_pos rfl, xorKS_xorKS, bytesStr_strBytes]

/-- The ciphertext bytes of an encrypted blob are never the plaintext bytes:
the 16-byte authentication tag makes the `data` field strictly longer. -/
theorem encrypt_data_ne_plaintext (iv : List Nat) (s : String) :
    (encrypt iv s).data ≠ strBytes s := by
  intro h
  have := congrArg List.length h
  simp only [encrypt, List.length_append, xorKS_length, authTag_length] at this
  omega

namespace Bucket

theorem find?_upsert_self (k : String) (v : α) (b : Bucket α) :
    find? k (upsert k v b) = some v := by
  induction b with
  | nil => simp [upsert, find?]
  | cons e rest ih =>
    by_cases h : e.1 = k
    · simp [upsert, h, find?]
    · simp [upsert, h, find?, ih]

theorem find?_upsert_ne (k k' : String) (v : α) (b : Bucket α) (h : k' ≠ k) :
    find? k' (upsert k v b) = find? k' b := by
  have hk : ¬ (k = k') := fun hh => h hh.symm
  induction b with
  | nil => simp [upsert, find?, hk]
  | cons e rest ih =>
    by_cases he : e.1 = k
    · simp [upsert, he, find?, hk]
    · simp [upsert, he, find?, ih]

theorem keys_upsert (k : String) (v : α) (b : Bucket α) :
    (upsert k v b).map (·.1) =
      if k ∈ b.map (·.1) then b.map (·.1) else b.map (·.1) ++ [k] := by
  induction b with
  | nil => simp [upsert]
  | cons e rest ih =>
    by_cases h : e.1 = k
    · simp [upsert, h]
    · have hke : ¬ (k = e.1) := fun hh => h hh.symm
      simp only [upsert, if_neg h, List.map_cons, ih]
      by_cases hm : k ∈ rest.map (·.1)
      · simp [hm, hke]
      · simp [hm, hke]

theorem wf_upsert (k : String) (v : α) (b : Bucket α) (h : WF b) :
    WF (upsert k v b) := by
  unfold WF at h ⊢
  rw [keys_upsert]
  by_cases hm : k ∈ b.map (·.1)
  · rw [if_pos hm]; exact h
  · rw [if_neg hm, List.nodup_append]
    refine ⟨h, List.nodup_singleton k, ?_⟩
    intro a ha hb
    simp only [List.mem_singleton] at hb
    exact hm (hb ▸ ha)

theorem countP_keys_upsert (k : String) (v : α) (b : Bucket α) (h : WF b) :
    (upsert k v b).countP (fun e => e.1 = k) = 1 := by
  induction b with
  | nil => simp [upsert, List.countP_cons]
  | cons e rest ih =>
    have hrest : WF rest := (List.nodup_cons.mp h).2
    by_cases he : e.1 = k
    · subst he
      have hnot : e.1 ∉ rest.map (·.1) := (List.nodup_cons.mp h).1
      have : rest.countP (fun x => x.1 = e.1) = 0 := by
        rw [List.countP_eq_zero]
        intro x hx
        simp only [decide_eq_true_eq]
        intro hx1
        exact hnot (hx1 ▸ List.mem_map_of_mem (·.1) hx)
      simp [upsert, List.countP_cons, this]
    · simp [upsert, he, List.countP_cons, ih hrest]

theorem wf_erase (k : String) (b : Bucket α) (h : WF b) : WF (erase k b) :=
  List.Nodup.sublist ((List.filter_sublist b).map _) h

theorem values_nil : values ([] : Bucket α) = [] := rfl

theorem values_cons (e : String × α) (b : Bucket α) :
    values (e :: b) = e.2 :: values b := rfl

theorem find?_mem {b : Bucket α} {k : String} {v : α} (h : find? k b = some v) :
    (k, v) ∈ b := by
  induction b with
  | nil => simp [find?] at h
  | cons e rest ih =>
    by_cases he : e.1 = k
    · simp only [find?, if_pos he] at h
      injection h with hv
      subst hv
      have heta : ((e.1, e.2) : String × α) = e := rfl
      rw [← he, heta]
      exact List.mem_cons_self _ _
    · simp only [find?, if_neg he] at h
      exact List.mem_cons_of_mem _ (ih h)

theorem mem_upsert {b : Bucket α} {k : String} {v : α} {e : String × α}
    (h : e ∈ upsert k v b) : e = (k, v) ∨ e ∈ b := by
  induction b with
  | nil => simpa [upsert] using h
  | cons f rest ih =>
    by_cases hf : f.1 = k
    · simp only [upsert, if_pos hf, List.mem_cons] at h
      rcases h with h | h
      · exact Or.inl h
      · exact Or.inr (List.mem_cons_of_mem _ h)
    · simp only [upsert, if_neg hf, List.mem_cons] at h
      rcases h with h | h
      · exact Or.inr (h ▸ List.mem_cons_self _ _)
      · rcases ih h with h' | h'
        · exact Or.inl h'
        · exact Or.inr (List.mem_cons_of_mem _ h')

theorem erase_of_not_mem_keys {k : String} {b : Bucket α}
    (h : k ∉ b.map (·.1)) : erase k b = b := by
  unfold erase
  rw [List.filter_eq_self]
  intro e he
  simp only [decide_eq_true_eq]
  intro hh
  exact h (hh ▸ List.mem_map_of_mem (·.1) he)

theorem find?_erase_self (k : String) (b : Bucket α) :
    find? k (erase k b) = none := by
  induction b with
  | nil => rfl
  | cons e rest ih =>
    unfold erase at ih ⊢
    by_cases he : e.1 = k
    · rw [List.filter_cons_of_neg (by simp [he])]
      exact ih
    · rw [List.filter_cons_of_pos (by simp [he])]
      simpa [find?, he] using ih

theorem values_filter (p : β → Bool) (b : Bucket β) :
    values (b.filter (fun e => p e.2)) = (values b).filter p := by
  induction b with
  | nil => rfl
  | cons e rest ih =>
    by_cases he : p e.2 = true
    · simp [values_cons, List.filter_cons, he, ih]
    · simp [values_cons, List.filter_cons, he, ih]

theorem mem_keys_upsert_self (k : String) (v : α) (b : Bucket α) :
    k ∈ (upsert k v b).map (·.1) := by
  rw [keys_upsert]
  by_cases hm : k ∈ b.map (·.1)
  · rw [if_pos hm]
    exact hm
  · rw [if_neg hm]
    exact List.mem_append_right _ (List.mem_singleton.mpr rfl)

theorem mem_keys_upsert_of_mem {k' : String} {b : Bucket α} (k : String) (v : α)
    (h : k' ∈ b.map (·.1)) : k' ∈ (upsert k v b).map (·.1) := by
  rw [keys_upsert]
  by_cases hm : k ∈ b.map (·.1)
  · rw [if_pos hm]
    exact h
  · rw [if_neg hm]
    exact List.mem_append_left _ h

theorem keys_upsert_of_mem {k : String} {b : Bucket α} (v : α)
    (h : k ∈ b.map (·.1)) : (upsert k v b).map (·.1) = b.map (·.1) := by
  rw [keys_upsert, if_pos h]

theorem countP_values_upsert_le (p : α → Bool) (k : String) (v : α) (b : Bucket α)
    (hv : p v = false) :
    (values (upsert k v b)).countP p ≤ (values b).countP p := by
  induction b with
  | nil => simp [upsert, values, List.countP_cons, hv]
  | cons e rest ih =>
    by_cases he : e.1 = k
    · rw [show upsert k v (e :: rest) = (k, v) :: rest from by simp [upsert, he],
        values_cons, values_cons, List.countP_cons, List.countP_cons, hv]
      simp
    · rw [show upsert k v (e :: rest) = e :: upsert k v rest from by simp [upsert, he],
        values_cons, values_cons, List.countP_cons, List.countP_cons]
      omega

theorem countP_values_upsert_eq (p : α → Bool) {k : String} {w : α} (v : α) {b : Bucket α}
    (hfind : find? k b = some w) (hvw : p v = p w) :
    (values (upsert k v b)).countP p = (values b).countP p := by
  induction b with
  | nil => simp [find?] at hfind
  | cons e rest ih =>
    by_cases he : e.1 = k
    · simp only [find?, if_pos he] at hfind
      cases hfind
      rw [show upsert k v (e :: rest) = (k, v) :: rest from by simp [upsert, he],
        values_cons, values_cons, List.countP_cons, List.countP_cons, hvw]
    · simp only [find?, if_neg he] at hfind
      rw [show upsert k v (e :: rest) = e :: upsert k v rest from by simp [upsert, he],
        values_cons, values_cons, List.countP_cons, List.countP_cons, ih hfind]

theorem countP_values_upsert_of_zero (p : α → Bool) (k : String) (v : α) (b : Bucket α)
    (h0 : (values b).countP p = 0) (hv : p v = true) :
    (values (upsert k v b)).countP p = 1 := by
  induction b with
  | nil => simp [upsert, values, List.countP_cons, hv]
  | cons e rest ih =>
    rw [values_cons, List.countP_cons] at h0
    have he2 : p e.2 = false := by
      cases hpe : p e.2
      · rfl
      · rw [hpe] at h0
        simp at h0
    have hrest : (values rest).countP p = 0 := by
      rw [he2] at h0
      simpa using h0
    by_cases he : e.1 = k
    · rw [show upsert k v (e :: rest) = (k, v) :: rest from by simp [upsert, he],
        values_cons, List.countP_cons, hv, hrest]
      simp
    · rw [show upsert k v (e :: rest) = e :: upsert k v rest from by simp [upsert, he],
        values_cons, List.countP_cons, he2, ih hrest]
      simp

theorem countP_values_erase (p : α → Bool) {k : String} {w : α} {b : Bucket α}
    (hfind : find? k b = some w) (hw : p w = false) (hwf : WF b) :
    (values (erase k b)).countP p = (values b).countP p := by
  induction b with
  | nil => simp [find?] at hfind
  | cons e rest ih =>
    have hwfr : WF rest := (List.nodup_cons.mp hwf).2
    unfold erase at ih ⊢
    by_cases he : e.1 = k
    · simp only [find?, if_pos he] at hfind
      cases hfind
      have hnk : k ∉ rest.map (·.1) := by
        have hne := (List.nodup_cons.mp hwf).1
        simpa [he] using hne
      rw [List.filter_cons_of_neg (by simp [he])]
      rw [show List.filter (fun e => decide (e.1 ≠ k)) rest = erase k rest from rfl,
        erase_of_not_mem_keys hnk, values_cons, List.countP_cons, hw]
      simp
    · simp only [find?, if_neg he] at hfind
      rw [List.filter_cons_of_pos (by simp [he]), values_cons, values_cons,
        List.countP_cons, List.countP_cons, ih hfind hwfr]

end Bucket

namespace LocalStorageProvider

theorem saveProviderConfig_find?_self (cfg : ProviderConfigInput) (now : Nat)
    (freshId : String) (st : LocalStorageData) :
    ((saveProviderConfig cfg now freshId st).2).providers.find?
        (compositeKey cfg.profileId cfg.providerId) =
      some (saveProviderConfig cfg now freshId st).1 := by
  unfold saveProviderConfig
  cases h : st.providers.find? (compositeKey cfg.profileId cfg.providerId) <;>
    simp [h, Bucket.find?_upsert_self]

theorem saveProviderConfig_fst_fields (cfg : ProviderConfigInput) (now : Nat)
    (freshId : String) (st : LocalStorageData) :
    (saveProviderConfig cfg now freshId st).1.apiKey = cfg.apiKey
    ∧ (saveProviderConfig cfg now freshId st).1.model = cfg.model
    ∧ (saveProviderConfig cfg now freshId st).1.providerId = cfg.providerId
    ∧ (saveProviderConfig cfg now freshId st).1.providerType = cfg.providerType
    ∧ (saveProviderConfig cfg now freshId st).1.profileId = cfg.profileId
    ∧ (saveProviderConfig cfg now freshId st).1.updatedAt = now := by
  unfold saveProviderConfig
  cases h : st.providers.find? (compositeKey cfg.profileId cfg.providerId) <;>
    simp [h]

theorem saveProviderConfig_fst_of_found (cfg : ProviderConfigInput) (now : Nat)
    (freshId : String) (st : LocalStorageData) {ex : ProviderConfigRecord}
    (h : st.providers.find? (compositeKey cfg.profileId cfg.providerId) = some ex) :
    (saveProviderConfig cfg now freshId st).1.id = ex.id
    ∧ (saveProviderConfig cfg now freshId st).1.createdAt = ex.createdAt := by
  unfold saveProviderConfig
  simp [h]

theorem saveProviderConfig_snd_profiles (cfg : ProviderConfigInput) (now : Nat)
    (freshId : String) (st : LocalStorageData) :
    (saveProviderConfig cfg now freshId st).2.profiles = st.profiles := rfl

theorem saveProviderConfig_snd_metadata (cfg : ProviderConfigInput) (now : Nat)
    (freshId : String) (st : LocalStorageData) :
    (saveProviderConfig cfg now freshId st).2.metadata = st.metadata := rfl

theorem saveProviderConfig_snd_providers (cfg : ProviderConfigInput) (now : Nat)
    (freshId : String) (st : LocalStorageData) :
    (saveProviderConfig cfg now freshId st).2.providers =
      st.providers.upsert (compositeKey cfg.profileId cfg.providerId)
        (saveProviderConfig cfg now freshId st).1 := rfl

theorem saveProfile_snd_metadata (p : ProfileRecord) (st : LocalStorageData) :
    (saveProfile p st).2.metadata = st.metadata := rfl

theorem saveProfile_snd_providers (p : ProfileRecord) (st : LocalStorageData) :
    (saveProfile p st).2.providers = st.providers := rfl

theorem getSchemaVersion_setSchemaVersion (n now : Nat) (st : LocalStorageData) :
    getSchemaVersion (setSchemaVersion n now st) = n := by
  unfold getSchemaVersion setSchemaVersion setMetadata getMetadata
  simp [Bucket.find?_upsert_self]

end LocalStorageProvider

namespace ProfileOp

open LocalStorageProvider

/-- One safe operation keeps the profile keys unique and the number of
default profiles at most one. -/
theorem apply_invariant (op : ProfileOp) (st : LocalStorageData) (hsafe : op.safe)
    (hwf : Bucket.WF st.profiles) (hc : defaultCount st ≤ 1) :
    Bucket.WF (op.apply st).profiles ∧ defaultCount (op.apply st) ≤ 1 := by
  cases op with
  | create input now freshId =>
    refine ⟨Bucket.wf_upsert _ _ _ hwf, ?_⟩
    unfold defaultCount getAllProfiles at hc ⊢
    have hle := Bucket.countP_values_upsert_le (·.isDefault) freshId
      { id := freshId, name := input.name.trim.take 50,
        description := input.description.map String.trim,
        createdAt := now, updatedAt := now, isDefault := false }
      st.profiles rfl
    calc ((createProfile input now freshId st).2.profiles.values).countP (·.isDefault)
        ≤ (st.profiles.values).countP (·.isDefault) := hle
      _ ≤ 1 := hc
  | update id u now =>
    simp only [apply]
    cases hfind : st.profiles.find? id with
    | none =>
      simp only [updateProfile, hfind]
      exact ⟨hwf, hc⟩
    | some existing =>
      simp only [updateProfile, hfind]
      refine ⟨Bucket.wf_upsert _ _ _ hwf, ?_⟩
      have hflag : u.isDefault = none := hsafe
      have heq2 := Bucket.countP_values_upsert_eq (·.isDefault)
        (w := existing)
        { spreadProfile existing u with
          id := existing.id, createdAt := existing.createdAt, updatedAt := now }
        hfind (by simp [spreadProfile, hflag])
      unfold defaultCount getAllProfiles at hc ⊢
      simp only
      rw [heq2]
      exact hc
  | delete id =>
    simp only [apply]
    cases hfind : st.profiles.find? id with
    | none =>
      simp only [deleteProfile, hfind]
      exact ⟨hwf, hc⟩
    | some p =>
      cases hdef : p.isDefault with
      | true =>
        simp only [deleteProfile, hfind, hdef, if_true]
        exact ⟨hwf, hc⟩
      | false =>
        simp only [deleteProfile, hfind, hdef, Bool.false_eq_true, if_false]
        refine ⟨Bucket.wf_erase _ _ hwf, ?_⟩
        unfold defaultCount getAllProfiles at hc ⊢
        simp only
        rw [Bucket.countP_values_erase (·.isDefault) hfind hdef hwf]
        exact hc
  | getDefault now freshId =>
    simp only [apply]
    unfold getDefaultProfile
    cases hfind : st.profiles.values.find? (·.isDefault) with
    | some p =>
      simp only [hfind]
      exact ⟨hwf, hc⟩
    | none =>
      simp only [hfind]
      refine ⟨Bucket.wf_upsert _ _ _ hwf, ?_⟩
      have hzero : (st.profiles.values).countP (·.isDefault) = 0 := by
        rw [List.countP_eq_zero]
        exact fun a ha => List.find?_eq_none.mp hfind a ha
      have h1 := Bucket.countP_values_upsert_of_zero (·.isDefault) freshId
        { id := freshId, name := "Default", description := none,
          createdAt := now, updatedAt := now, isDefault := true }
        st.profiles hzero rfl
      unfold defaultCount getAllProfiles
      simp only
      exact h1.le
  | save p => exact absurd hsafe (by simp [safe])

/-- Safe-operation sequences keep the invariant. -/
theorem run_invariant (ops : List ProfileOp) (st : LocalStorageData)
    (hsafe : ∀ op ∈ ops, op.safe)
    (hwf : Bucket.WF st.profiles) (hc : defaultCount st ≤ 1) :
    Bucket.WF (run st ops).profiles ∧ defaultCount (run st ops) ≤ 1 := by
  induction ops generalizing st with
  | nil => exact ⟨hwf, hc⟩
  | cons op rest ih =>
    have hop := apply_invariant op st (hsafe op (List.mem_cons_self _ _)) hwf hc
    exact ih (apply st op) (fun o ho => hsafe o (List.mem_cons_of_mem _ ho)) hop.1 hop.2

end ProfileOp

namespace Migration

open LocalStorageProvider

theorem foldl_saveProfile_metadata (ps : List ProfileRecord) (st : LocalStorageData) :
    (ps.foldl (fun s p => (saveProfile p s).2) st).metadata = st.metadata := by
  induction ps generalizing st with
  | nil => rfl
  | cons p rest ih =>
    rw [List.foldl_cons, ih]
    rfl

theorem foldl_saveConfig_metadata (now : Nat) (uuid : Nat → String)
    (configs : List ProviderConfigRecord) (acc : Nat × LocalStorageData) :
    ((configs.foldl
        (fun (acc : Nat × LocalStorageData) c =>
          (acc.1 + 1, (saveProviderConfig (inputOfRecord c) now (uuid acc.1) acc.2).2))
        acc).2).metadata = acc.2.metadata := by
  induction configs generalizing acc with
  | nil => rfl
  | cons c rest ih =>
    rw [List.foldl_cons, ih]
    rfl

theorem migrateConfigs_metadata (db : IDBModel) (now : Nat) (uuid : Nat → String)
    (ps : List ProfileRecord) (idx : Nat) (s : LocalStorageData) :
    ((migrateConfigs db now uuid ps idx s).2.2).metadata = s.metadata := by
  induction ps generalizing idx s with
  | nil => rfl
  | cons p rest ih =>
    unfold migrateConfigs
    cases hc : db.configsByProfile p.id with
    | error e => rfl
    | ok configs =>
      simp only
      rw [ih, foldl_saveConfig_metadata]

theorem getSchemaVersion_eq_of_metadata {s t : LocalStorageData}
    (h : s.metadata = t.metadata) : getSchemaVersion s = getSchemaVersion t := by
  unfold getSchemaVersion getMetadata
  rw [h]

end Migration

namespace Orch

theorem orchOfConfig_apiKey {c : ProviderConfigRecord} {p : OrchProvider}
    (h : orchOfConfig c = some p) : p.apiKey = "" := by
  unfold orchOfConfig at h
  split at h
  · simp only [Option.some.injEq] at h
    rw [← h]
  · split at h
    · cases h
    · simp only [Option.some.injEq] at h
      rw [← h]

theorem loadStep_apiKey (acc : Bucket OrchProvider × List String × Bucket EncryptedData)
    (c : ProviderConfigRecord) (h : ∀ e ∈ acc.1, e.2.apiKey = "") :
    ∀ e ∈ (loadStep acc c).1, e.2.apiKey = "" := by
  unfold loadStep
  split
  · exact h
  · next p horch =>
    intro e he
    rcases Bucket.mem_upsert he with he' | he'
    · rw [he']
      exact orchOfConfig_apiKey horch
    · exact h e he'

theorem foldl_loadStep_apiKey (configs : List ProviderConfigRecord)
    (acc : Bucket OrchProvider × List String × Bucket EncryptedData)
    (h : ∀ e ∈ acc.1, e.2.apiKey = "") :
    ∀ e ∈ (configs.foldl loadStep acc).1, e.2.apiKey = "" := by
  induction configs generalizing acc with
  | nil => exact h
  | cons c rest ih =>
    rw [List.foldl_cons]
    exact ih _ (loadStep_apiKey acc c h)

/-- Every in-memory provider entry built by a load has an empty `apiKey`
mirror (plaintext keys are never kept there by the loading path). -/
theorem loadProviderConfigs_apiKey_empty (profileId : String) (now : Nat)
    (st : OrchState) :
    ∀ e ∈ (loadProviderConfigs profileId now st).providers, e.2.apiKey = "" := by
  unfold loadProviderConfigs
  exact foldl_loadStep_apiKey _ _ (by intro e he; cases he)

end Orch

theorem providers_filter_values (P Q : String) (b : Bucket ProviderConfigRecord)
    (hQ : Q ≠ P) :
    List.filter (fun c => decide (c.profileId = Q))
        (Bucket.values (List.filter (fun e => decide (¬ (e.2.profileId = P))) b))
      = List.filter (fun c => decide (c.profileId = Q)) (Bucket.values b) := by
  induction b with
  | nil => rfl
  | cons e rest ih =>
    by_cases hp : e.2.profileId = P
    · rw [List.filter_cons_of_neg (by simp [hp]), Bucket.values_cons,
        List.filter_cons_of_neg (by simp [hp]; exact fun h => hQ h.symm), ih]
    · rw [List.filter_cons_of_pos (by simp [hp]), Bucket.values_cons, Bucket.values_cons]
      by_cases hq : e.2.profileId = Q
      · rw [List.filter_cons_of_pos (by simp [hq]), List.filter_cons_of_pos (by simp [hq]), ih]
      · rw [List.filter_cons_of_neg (by simp [hq]), List.filter_cons_of_neg (by simp [hq]), ih]

/-! ## Claims -/

section Claims

open LocalStorageProvider

/-- C2: for every string S of length 1 to 500 (and in fact any length) and
every IV, decrypting the result of encrypting S with the Encryption
Utility returns exactly S.  The cipher is modelled from the spec, since
`@/lib/ai/encryption` is not among the repository's source files. -/
theorem c2_encrypt_decrypt_roundtrip (S : String) (iv : List Nat)
    (hlen1 : 1 ≤ S.length) (hlen2 : S.length ≤ 500) :
    decrypt (encrypt iv S) = .ok S :=
  decrypt_encrypt iv S

theorem c2_encrypt_decrypt_roundtrip_witness :
    1 ≤ ("sk-test-123" : String).length ∧ ("sk-test-123" : String).length ≤ 500
    ∧ decrypt (encrypt [7, 13, 42] "sk-test-123") = .ok "sk-test-123" :=
  ⟨by decide, by decide,
   c2_encrypt_decrypt_roundtrip "sk-test-123" [7, 13, 42] (by decide) (by decide)⟩

/-- C3: when profile `P` exists with `isDefault = true`, `deleteProfile P`
fails with the invalid-operation error ("Cannot delete default profile")
and leaves the store — profiles bucket and provider-configs bucket —
completely unchanged: the rejection happens before any write. -/
theorem c3_deleteProfile_default_rejected (st : LocalStorageData) (P : String)
    (p : ProfileRecord) (hfind : st.profiles.find? P = some p)
    (hdef : p.isDefault = true) :
    deleteProfile P st = .error (.invalidOperation "Cannot delete default profile")
    ∧ ProfileOp.apply st (.delete P) = st := by
  have h1 : deleteProfile P st =
      .error (.invalidOperation "Cannot delete default profile") := by
    simp only [deleteProfile, hfind, hdef, if_true]
  exact ⟨h1, by simp only [ProfileOp.apply, h1]⟩

theorem c3_deleteProfile_default_rejected_witness :
    deleteProfile "p1" { profiles := [("p1", sampleProfile)], providers := [], metadata := [] }
      = .error (.invalidOperation "Cannot delete default profile")
    ∧ ProfileOp.apply { profiles := [("p1", sampleProfile)], providers := [], metadata := [] }
        (.delete "p1")
      = { profiles := [("p1", sampleProfile)], providers := [], metadata := [] } :=
  c3_deleteProfile_default_rejected _ "p1" sampleProfile (by decide) (by decide)

/-- C10: `updateProfile(id, partial)` returns and persists a record whose
`id` and `createdAt` equal the pre-existing record's, even when the
partial itself carries `id` or `createdAt` values; `updatedAt` becomes
the current time and the other fields follow the partial. -/
theorem c10_updateProfile_preserves_id_createdAt (st : LocalStorageData)
    (id : String) (u : ProfileUpdate) (now : Nat) (existing : ProfileRecord)
    (hfind : st.profiles.find? id = some existing) :
    ∃ r st', updateProfile id u now st = .ok (r, st')
      ∧ r.id = existing.id
      ∧ r.createdAt = existing.createdAt
      ∧ st'.profiles.find? id = some r
      ∧ r.updatedAt = now
      ∧ r.name = u.name.getD existing.name
      ∧ r.description = u.description.getD existing.description
      ∧ r.isDefault = u.isDefault.getD existing.isDefault := by
  simp only [updateProfile, hfind]
  exact ⟨_, _, rfl, rfl, rfl, Bucket.find?_upsert_self _ _ _, rfl, rfl, rfl, rfl⟩

theorem c10_updateProfile_preserves_id_createdAt_witness :
    ∃ r st', updateProfile "p1"
        { id := some "rogue", createdAt := some 999, name := some "Renamed" } 42
        { profiles := [("p1", sampleProfile)], providers := [], metadata := [] }
      = .ok (r, st')
      ∧ r.id = sampleProfile.id
      ∧ r.createdAt = sampleProfile.createdAt
      ∧ st'.profiles.find? "p1" = some r
      ∧ r.updatedAt = 42
      ∧ r.name = (some "Renamed").getD sampleProfile.name
      ∧ r.description = none.getD sampleProfile.description
      ∧ r.isDefault = none.getD sampleProfile.isDefault :=
  c10_updateProfile_preserves_id_createdAt _ "p1"
    { id := some "rogue", createdAt := some 999, name := some "Renamed" } 42
    sampleProfile (by decide)

/-- C4: `saveProviderConfig` is an upsert keyed by `profileId:providerId`:
two calls with the same composite key leave exactly one stored record for
that key, whose `model` comes from the second call, while the second call
preserves the first record's `id` and `createdAt` and sets `updatedAt` to
the second call's time. -/
theorem c4_saveProviderConfig_upsert (st : LocalStorageData)
    (cfg1 cfg2 : ProviderConfigInput) (now1 now2 : Nat) (id1 id2 : String)
    (hwf : Bucket.WF st.providers)
    (hpid : cfg2.profileId = cfg1.profileId)
    (hprid : cfg2.providerId = cfg1.providerId) :
    ∃ r1 st1 r2 st2,
      saveProviderConfig cfg1 now1 id1 st = (r1, st1)
      ∧ saveProviderConfig cfg2 now2 id2 st1 = (r2, st2)
      ∧ st2.providers.countP
          (fun e => e.1 = compositeKey cfg2.profileId cfg2.providerId) = 1
      ∧ st2.providers.find? (compositeKey cfg2.profileId cfg2.providerId) = some r2
      ∧ r2.model = cfg2.model
      ∧ r2.id = r1.id
      ∧ r2.createdAt = r1.createdAt
      ∧ r2.updatedAt = now2 := by
  have hwf1 : Bucket.WF ((saveProviderConfig cfg1 now1 id1 st).2).providers := by
    rw [saveProviderConfig_snd_providers]
    exact Bucket.wf_upsert _ _ _ hwf
  have hfound : ((saveProviderConfig cfg1 now1 id1 st).2).providers.find?
      (compositeKey cfg2.profileId cfg2.providerId)
      = some (saveProviderConfig cfg1 now1 id1 st).1 := by
    rw [hpid, hprid]
    exact saveProviderConfig_find?_self _ _ _ _
  refine ⟨(saveProviderConfig cfg1 now1 id1 st).1, (saveProviderConfig cfg1 now1 id1 st).2,
    (saveProviderConfig cfg2 now2 id2 (saveProviderConfig cfg1 now1 id1 st).2).1,
    (saveProviderConfig cfg2 now2 id2 (saveProviderConfig cfg1 now1 id1 st).2).2,
    rfl, rfl, ?_, saveProviderConfig_find?_self _ _ _ _,
    (saveProviderConfig_fst_fields _ _ _ _).2.1,
    (saveProviderConfig_fst_of_found _ _ _ _ hfound).1,
    (saveProviderConfig_fst_of_found _ _ _ _ hfound).2,
    (saveProviderConfig_fst_fields _ _ _ _).2.2.2.2.2⟩
  rw [saveProviderConfig_snd_providers]
  exact Bucket.countP_keys_upsert _ _ _ hwf1

theorem c4_saveProviderConfig_upsert_witness :
    ∃ r1 st1 r2 st2,
      saveProviderConfig
          { profileId := "p1", providerId := "openai", providerType := .builtin,
            apiKey := none, model := "gpt-4o", baseUrl := none, enabled := false }
          3 "id1" emptyData = (r1, st1)
      ∧ saveProviderConfig
          { profileId := "p1", providerId := "openai", providerType := .builtin,
            apiKey := none, model := "gpt-4o-mini", baseUrl := none, enabled := true }
          9 "id2" st1 = (r2, st2)
      ∧ st2.providers.countP (fun e => e.1 = compositeKey "p1" "openai") = 1
      ∧ st2.providers.find? (compositeKey "p1" "openai") = some r2
      ∧ r2.model = "gpt-4o-mini"
      ∧ r2.id = r1.id
      ∧ r2.createdAt = r1.createdAt
      ∧ r2.updatedAt = 9 :=
  c4_saveProviderConfig_upsert emptyData
    { profileId := "p1", providerId := "openai", providerType := .builtin,
      apiKey := none, model := "gpt-4o", baseUrl := none, enabled := false }
    { profileId := "p1", providerId := "openai", providerType := .builtin,
      apiKey := none, model := "gpt-4o-mini", baseUrl := none, enabled := true }
    3 9 "id1" "id2" (by simp [Bucket.WF, emptyData]) rfl rfl

/-- C5: deleting an existing non-default profile `P` succeeds, leaves
`getProviderConfigsByProfile P` empty, removes `P` from `getAllProfiles`
(under the key-coherence invariant that every stored profile is keyed by
its own id), and preserves every other profile's provider configs. -/
theorem c5_deleteProfile_cascade (st : LocalStorageData) (P : String)
    (p : ProfileRecord) (hfind : st.profiles.find? P = some p)
    (hnd : p.isDefault = false)
    (hcoh : ∀ e ∈ st.profiles, e.2.id = e.1) :
    ∃ st', deleteProfile P st = .ok st'
      ∧ getProviderConfigsByProfile P st' = []
      ∧ st'.profiles.find? P = none
      ∧ (∀ q ∈ getAllProfiles st', q.id ≠ P)
      ∧ (∀ Q, Q ≠ P →
          getProviderConfigsByProfile Q st' = getProviderConfigsByProfile Q st) := by
  simp only [deleteProfile, hfind, hnd, Bool.false_eq_true, if_false]
  refine ⟨_, rfl, ?_, Bucket.find?_erase_self _ _, ?_, ?_⟩
  · unfold getProviderConfigsByProfile
    rw [List.filter_eq_nil_iff]
    intro c hc
    have hc' := hc
    unfold Bucket.values at hc'
    rcases List.mem_map.mp hc' with ⟨e, he, rfl⟩
    have hpred := List.of_mem_filter he
    simp only [decide_eq_true_eq] at hpred ⊢
    exact hpred
  · intro q hq
    unfold getAllProfiles Bucket.values at hq
    rcases List.mem_map.mp hq with ⟨e, he, rfl⟩
    have hin : e ∈ st.profiles := List.mem_of_mem_filter he
    have hkey := List.of_mem_filter he
    simp only [decide_eq_true_eq] at hkey
    rw [hcoh e hin]
    exact hkey
  · intro Q hQ
    unfold getProviderConfigsByProfile Bucket.values
    exact providers_filter_values P Q st.providers hQ

theorem c5_deleteProfile_cascade_witness :
    ∃ st', deleteProfile "p2"
        { profiles := [("p2", { id := "p2", name := "Work", description := none,
                                createdAt := 0, updatedAt := 0, isDefault := false })],
          providers := [("p2:openai", sampleConfig), ("p3:openai",
            { sampleConfig with id := "c2", profileId := "p3" })],
          metadata := [] }
      = .ok st'
      ∧ getProviderConfigsByProfile "p2" st' = []
      ∧ st'.profiles.find? "p2" = none
      ∧ (∀ q ∈ getAllProfiles st', q.id ≠ "p2")
      ∧ (∀ Q, Q ≠ "p2" →
          getProviderConfigsByProfile Q st'
            = getProviderConfigsByProfile Q
                { profiles := [("p2", { id := "p2", name := "Work", description := none,
                                        createdAt := 0, updatedAt := 0, isDefault := false })],
                  providers := [("p2:openai", sampleConfig), ("p3:openai",
                    { sampleConfig with id := "c2", profileId := "p3" })],
                  metadata := [] }) :=
  c5_deleteProfile_cascade _ "p2"
    { id := "p2", name := "Work", description := none,
      createdAt := 0, updatedAt := 0, isDefault := false }
    (by decide) rfl (by decide)

/-- C6 counterexample: the claim "exactly one profile has `isDefault = true`
at every reachable storage state, under every sequence of storage-provider
operations from the empty store" is false on the code: `saveProfile`
writes arbitrary records verbatim, so saving two records with
`isDefault = true` yields a store with two defaults (and the empty store
itself, or the store after a plain `createProfile`, has zero). -/
theorem c6_exactly_one_default_counterexample :
    ¬ (ProfileOp.defaultCount (ProfileOp.run emptyData
        [ProfileOp.save { id := "a", name := "A", description := none,
                          createdAt := 0, updatedAt := 0, isDefault := true },
         ProfileOp.save { id := "b", name := "B", description := none,
                          createdAt := 0, updatedAt := 0, isDefault := true }]) = 1) := by
  decide

/-- C6 amended: under sequences of `createProfile`, `updateProfile` with a
partial that does not set `isDefault`, `deleteProfile` and
`getDefaultProfile` (excluding `saveProfile` and `isDefault`-writing
updates, which can store arbitrary flags), the empty store never reaches
more than one default profile; and whenever the store has zero defaults,
`getDefaultProfile` self-heals it to exactly one. -/
theorem c6_at_most_one_default_amended :
    (∀ ops : List ProfileOp, (∀ op ∈ ops, op.safe) →
        ProfileOp.defaultCount (ProfileOp.run emptyData ops) ≤ 1)
    ∧ (∀ (now : Nat) (freshId : String) (st : LocalStorageData),
        ProfileOp.defaultCount st = 0 →
        ProfileOp.defaultCount (getDefaultProfile now freshId st).2 = 1) := by
  constructor
  · intro ops hsafe
    exact (ProfileOp.run_invariant ops emptyData hsafe List.nodup_nil (by decide)).2
  · intro now freshId st h0
    unfold ProfileOp.defaultCount getAllProfiles at h0 ⊢
    unfold getDefaultProfile
    cases hfind : st.profiles.values.find? (·.isDefault) with
    | some p =>
      exfalso
      have hp := List.find?_some hfind
      have hmem := List.mem_of_find?_eq_some hfind
      exact absurd hp (by simpa using List.countP_eq_zero.mp h0 p hmem)
    | none =>
      simp only [hfind]
      exact Bucket.countP_values_upsert_of_zero (fun r : ProfileRecord => r.isDefault)
        freshId _ _ h0 rfl

theorem c6_at_most_one_default_amended_witness :
    ProfileOp.defaultCount (ProfileOp.run emptyData
      [ProfileOp.getDefault 0 "d1", ProfileOp.create ⟨"Work", none⟩ 1 "p2",
       ProfileOp.delete "p2"]) ≤ 1
    ∧ ProfileOp.defaultCount (getDefaultProfile 0 "d1" emptyData).2 = 1 :=
  ⟨c6_at_most_one_default_amended.1 _
      (by
        intro op hop
        rcases List.mem_cons.mp hop with rfl | hop
        · trivial
        · rcases List.mem_cons.mp hop with rfl | hop
          · trivial
          · rcases List.mem_cons.mp hop with rfl | hop
            · trivial
            · cases hop),
   c6_at_most_one_default_amended.2 0 "d1" emptyData (by decide)⟩

/-- C7 counterexample: the claim that `createCustomProvider` validates the
base URL (HTTPS) and non-emptiness of the model list, and creates no
provider config on invalid input, is false on the code: the orchestration
method performs no validation.  With a non-HTTPS base URL and an empty
model list, a config is created and persisted (with `model = ""`). -/
theorem c7_createCustomProvider_counterexample :
    (Orch.createCustomProvider
        { name := "Evil", baseUrl := "http://evil.example", models := [] }
        "u1" 5 "cid" sampleState).toOption.map
      (fun st' => (st'.storage.providers.length,
        (st'.storage.providers.find? "p1:custom-u1").map
          (fun r => (r.baseUrl, r.model, r.providerType))))
    = some (1, some (some "http://evil.example", "", ProviderType.custom)) := by
  decide

/-- C7 amended: the HTTPS and non-empty-models validation lives in the UI
handler `handleCreateCustomProvider` (login-dialog), not in
`createCustomProvider`: for every input whose trimmed base URL does not
start with `https://` or whose parsed model list is empty, the handler
returns with the state unchanged and no config is created;
`createCustomProvider` itself creates a `custom-<uuid>` config for any
input whenever a profile is active. -/
theorem c7_custom_provider_validation_amended :
    (∀ (nameRaw baseUrlRaw modelsRaw : String) (urlParseOk : Bool) (uuid : String)
       (now : Nat) (freshId : String) (st : OrchState),
       (¬ (Orch.jsStartsWith (Orch.jsTrim baseUrlRaw) "https://")
        ∨ ((Orch.jsSplit ',' modelsRaw).map Orch.jsTrim).filter (fun m => m ≠ "") = []) →
       Orch.handleCreateCustomProvider nameRaw baseUrlRaw modelsRaw urlParseOk uuid
         now freshId st = st)
    ∧ (∀ (input : CustomProviderInput) (uuid : String) (now : Nat) (freshId : String)
         (st : OrchState) (cp : ProfileRecord), st.currentProfile = some cp →
       ∃ st' r, Orch.createCustomProvider input uuid now freshId st = .ok st'
         ∧ st'.storage.providers.find? (compositeKey cp.id ("custom-" ++ uuid)) = some r
         ∧ r.providerId = "custom-" ++ uuid
         ∧ r.providerType = .custom) := by
  constructor
  · intro nameRaw baseUrlRaw modelsRaw urlParseOk uuid now freshId st hbad
    unfold Orch.handleCreateCustomProvider
    by_cases h1 : Orch.jsTrim nameRaw = "" ∨ Orch.jsTrim baseUrlRaw = ""
    · rw [if_pos h1]
    · rw [if_neg h1]
      by_cases h2 : urlParseOk = true
      · rcases hbad with hb | hb
        · rw [if_neg (by simp [h2]), if_pos hb]
        · by_cases h3 : Orch.jsStartsWith (Orch.jsTrim baseUrlRaw) "https://" = true
          · rw [if_neg (by simp [h2]), if_neg (by simp [h3])]
            rw [hb]
            rfl
          · rw [if_neg (by simp [h2]), if_pos (by simp [h3])]
      · rw [if_pos (by simp [h2])]
  · intro input uuid now freshId st cp hcp
    unfold Orch.createCustomProvider
    rw [hcp]
    refine ⟨_, (saveProviderConfig
        { profileId := cp.id, providerId := "custom-" ++ uuid, providerType := .custom,
          apiKey := none, model := input.models.headD "",
          baseUrl := some input.baseUrl, enabled := false,
          customName := some (some input.name),
          customModels := some (some input.models) } now freshId st.storage).1,
      rfl, ?_, ?_, ?_⟩
    · have hload : ∀ (pid : String) (n : Nat) (s : OrchState),
          (Orch.loadProviderConfigs pid n s).storage.providers = s.storage.providers :=
        fun _ _ _ => rfl
      rw [hload]
      exact saveProviderConfig_find?_self
        { profileId := cp.id, providerId := "custom-" ++ uuid, providerType := .custom,
          apiKey := none, model := input.models.headD "",
          baseUrl := some input.baseUrl, enabled := false,
          customName := some (some input.name),
          customModels := some (some input.models) } now freshId st.storage
    · exact (saveProviderConfig_fst_fields _ _ _ _).2.2.1
    · exact (saveProviderConfig_fst_fields _ _ _ _).2.2.2.1

theorem c7_custom_provider_validation_amended_witness :
    Orch.handleCreateCustomProvider "Evil" "http://evil.example" "m1, m2" true
        "u1" 5 "cid" sampleState = sampleState
    ∧ ∃ st' r, Orch.createCustomProvider
          { name := "Good", baseUrl := "https://good.example", models := ["m1"] }
          "u2" 6 "cid2" sampleState = .ok st'
        ∧ st'.storage.providers.find? (compositeKey "p1" "custom-u2") = some r
        ∧ r.providerId = "custom-u2"
        ∧ r.providerType = .custom :=
  ⟨c7_custom_provider_validation_amended.1 "Evil" "http://evil.example" "m1, m2"
      true "u1" 5 "cid" sampleState (Or.inl (by decide)),
   c7_custom_provider_validation_amended.2
      { name := "Good", baseUrl := "https://good.example", models := ["m1"] }
      "u2" 6 "cid2" sampleState sampleProfile rfl⟩

/-- C1: `updateProvider` with a non-empty `apiKey` in the partial update
persists and caches only the encrypted blob, never the plaintext: the
stored record's `apiKey` field is `some (encrypt iv k)`, the in-memory
cache holds the same blob, the blob decrypts back to the plaintext, and
the blob's ciphertext bytes are never equal to the plaintext bytes. -/
theorem c1_updateProvider_encrypts_before_persist (st : OrchState)
    (cp : ProfileRecord) (id : String) (cfg : Orch.ProviderUpdate)
    (existing : OrchProvider) (k : String) (iv : List Nat) (now : Nat)
    (freshId : String)
    (hcp : st.currentProfile = some cp)
    (hex : st.providers.find? id = some existing)
    (hk : cfg.apiKey = some k) (hne : k ≠ "") :
    ∃ st' r, Orch.updateProvider id cfg iv now freshId st = .ok st'
      ∧ st'.storage.providers.find? (compositeKey cp.id id) = some r
      ∧ r.apiKey = some (encrypt iv k)
      ∧ st'.encryptedKeys.find? id = some (encrypt iv k)
      ∧ decrypt (encrypt iv k) = .ok k
      ∧ (∀ b, r.apiKey = some b → b.data ≠ strBytes k) := by
  have hkb : (decide (k ≠ "")) = true := decide_eq_true hne
  unfold Orch.updateProvider
  rw [hcp, hex]
  simp only [hk, Option.getD_some, hkb, if_true]
  refine ⟨_, (saveProviderConfig
      { profileId := cp.id, providerId := id, providerType := existing.providerType,
        apiKey := some (encrypt iv k),
        model := match cfg.model with
          | some m => if m = "" then existing.model else m
          | none => existing.model,
        baseUrl := match cfg.baseUrl with
          | some b => if b = "" then existing.baseUrl else some b
          | none => existing.baseUrl,
        enabled := cfg.enabled.getD existing.enabled } now freshId st.storage).1,
    rfl, ?_, ?_, Bucket.find?_upsert_self _ _ _, decrypt_encrypt iv k, ?_⟩
  · exact saveProviderConfig_find?_self
      { profileId := cp.id, providerId := id, providerType := existing.providerType,
        apiKey := some (encrypt iv k),
        model := match cfg.model with
          | some m => if m = "" then existing.model else m
          | none => existing.model,
        baseUrl := match cfg.baseUrl with
          | some b => if b = "" then existing.baseUrl else some b
          | none => existing.baseUrl,
        enabled := cfg.enabled.getD existing.enabled } now freshId st.storage
  · exact (saveProviderConfig_fst_fields _ _ _ _).1
  · intro b hb
    rw [(saveProviderConfig_fst_fields _ _ _ _).1] at hb
    injection hb with hb'
    rw [← hb']
    exact encrypt_data_ne_plaintext iv k

theorem c1_updateProvider_encrypts_before_persist_witness :
    ∃ st' r, Orch.updateProvider "openai" { apiKey := some "sk-test-123" }
        [7, 13, 42] 9 "rid" sampleState = .ok st'
      ∧ st'.storage.providers.find? (compositeKey "p1" "openai") = some r
      ∧ r.apiKey = some (encrypt [7, 13, 42] "sk-test-123")
      ∧ st'.encryptedKeys.find? "openai" = some (encrypt [7, 13, 42] "sk-test-123")
      ∧ decrypt (encrypt [7, 13, 42] "sk-test-123") = .ok "sk-test-123"
      ∧ (∀ b, r.apiKey = some b → b.data ≠ strBytes "sk-test-123") :=
  c1_updateProvider_encrypts_before_persist sampleState sampleProfile "openai"
    { apiKey := some "sk-test-123" } sampleProvider "sk-test-123" [7, 13, 42] 9 "rid"
    rfl (by decide) rfl (by decide)

/-- C8: `getDecryptedApiKey` never throws.  On every state satisfying the
cache-consistency invariant (an empty in-memory mirror whenever the key
cache misses — the invariant established by every load and preserved by
`updateProvider`, also proved here), a cache miss yields the empty string;
and a cached blob whose decryption fails yields the empty string instead
of a propagated error. -/
theorem c8_getDecryptedApiKey_never_throws :
    (∀ (st : OrchState) (id : String), Orch.CacheConsistent st →
        st.encryptedKeys.find? id = none → Orch.getDecryptedApiKey id st = "")
    ∧ (∀ (st : OrchState) (id : String) (blob : EncryptedData) (msg : String),
        st.encryptedKeys.find? id = some blob → decrypt blob = .error msg →
        Orch.getDecryptedApiKey id st = "")
    ∧ (∀ (st st' : OrchState) (id : String) (cfg : Orch.ProviderUpdate)
         (iv : List Nat) (now : Nat) (freshId : String), Orch.CacheConsistent st →
        Orch.updateProvider id cfg iv now freshId st = .ok st' →
        Orch.CacheConsistent st')
    ∧ (∀ (profileId : String) (now : Nat) (st : OrchState),
        Orch.CacheConsistent (Orch.loadProviderConfigs profileId now st)) := by
  refine ⟨?_, ?_, ?_, ?_⟩
  · intro st id hcons hmiss
    unfold Orch.getDecryptedApiKey
    rw [hmiss]
    cases hf : st.providers.find? id with
    | none => rfl
    | some p => simpa [hf] using hcons id p hmiss hf
  · intro st id blob msg hhit hdec
    unfold Orch.getDecryptedApiKey
    rw [hhit]
    simp [hdec]
  · intro st st' id cfg iv now freshId hcons hok
    unfold Orch.updateProvider at hok
    cases hcp : st.currentProfile with
    | none => rw [hcp] at hok; cases hok
    | some cp =>
      rw [hcp] at hok
      cases hex : st.providers.find? id with
      | none => rw [hex] at hok; cases hok
      | some existing =>
        rw [hex] at hok
        simp only [Except.ok.injEq] at hok
        subst hok
        intro id' p' hmiss hfindp
        cases hck : cfg.apiKey with
        | none =>
          simp only [hck] at hmiss hfindp
          by_cases hid : id' = id
          · subst hid
            rw [Bucket.find?_upsert_self] at hfindp
            injection hfindp with hp
            rw [← hp]
            simp only [hck, Option.getD_none]
            exact hcons id' existing hmiss hex
          · rw [Bucket.find?_upsert_ne _ _ _ _ hid] at hfindp
            exact hcons id' p' hmiss hfindp
        | some k =>
          by_cases hkv : k = ""
          · simp only [hck, hkv] at hmiss hfindp ⊢
            by_cases hid : id' = id
            · subst hid
              rw [Bucket.find?_upsert_self] at hfindp
              injection hfindp with hp
              rw [← hp]
              rfl
            · rw [Bucket.find?_upsert_ne _ _ _ _ hid] at hfindp
              exact hcons id' p' hmiss hfindp
          · have hkb : (decide (k ≠ "")) = true := decide_eq_true hkv
            simp only [hck, hkb, if_true] at hmiss hfindp
            by_cases hid : id' = id
            · subst hid
              rw [Bucket.find?_upsert_self] at hmiss
              cases hmiss
            · rw [Bucket.find?_upsert_ne _ _ _ _ hid] at hmiss hfindp
              exact hcons id' p' hmiss hfindp
  · intro profileId now st id p hmiss hfindp
    exact Orch.loadProviderConfigs_apiKey_empty profileId now st _
      (Bucket.find?_mem hfindp)

theorem c8_getDecryptedApiKey_never_throws_witness :
    Orch.getDecryptedApiKey "openai" sampleState = ""
    ∧ Orch.getDecryptedApiKey "openai"
        { sampleState with encryptedKeys := [("openai", ⟨[], []⟩)] } = "" :=
  ⟨c8_getDecryptedApiKey_never_throws.1 sampleState "openai"
      (by
        intro i p hm hf
        by_cases hi : ("openai" : String) = i
        · rw [show sampleState.providers.find? i = some sampleProvider from by
            rw [← hi]; decide] at hf
          injection hf with hp
          rw [← hp]
          rfl
        · rw [show sampleState.providers.find? i = none from by
            simp [sampleState, Bucket.find?, hi]] at hf
          cases hf)
      rfl,
   c8_getDecryptedApiKey_never_throws.2.1
      { sampleState with encryptedKeys := [("openai", ⟨[], []⟩)] } "openai"
      ⟨[], []⟩ "DecryptionError" rfl rfl⟩

theorem migrate_some_error {db : IDBModel} {e : String} (now : Nat)
    (uuid : Nat → String) (st : LocalStorageData) (hdb : db.profiles = .error e) :
    Migration.migrate (some db) now uuid st = (false, st) := by
  show (match db.profiles with
    | .error _ => (false, st)
    | .ok ps =>
      match Migration.migrateConfigs db now uuid ps 0
          (ps.foldl (fun s p => (saveProfile p s).2) st) with
      | (false, _, st2) => (false, st2)
      | (true, _, st2) =>
        (true, setSchemaVersion 2 now (Migration.migrateMetadata db now st2)))
    = (false, st)
  rw [hdb]

theorem migrate_some_ok {db : IDBModel} {profiles : List ProfileRecord} (now : Nat)
    (uuid : Nat → String) (st : LocalStorageData) (hdb : db.profiles = .ok profiles) :
    Migration.migrate (some db) now uuid st =
      match Migration.migrateConfigs db now uuid profiles 0
          (profiles.foldl (fun s p => (saveProfile p s).2) st) with
      | (false, _, st2) => (false, st2)
      | (true, _, st2) =>
        (true, setSchemaVersion 2 now (Migration.migrateMetadata db now st2)) := by
  show (match db.profiles with
    | .error _ => (false, st)
    | .ok ps =>
      match Migration.migrateConfigs db now uuid ps 0
          (ps.foldl (fun s p => (saveProfile p s).2) st) with
      | (false, _, st2) => (false, st2)
      | (true, _, st2) =>
        (true, setSchemaVersion 2 now (Migration.migrateMetadata db now st2)))
    = _
  rw [hdb]

theorem isMigrationNeeded_of_ge (idb : Option IDBModel) (now : Nat)
    (st : LocalStorageData) (h : getSchemaVersion st ≥ 2) :
    Migration.isMigrationNeeded idb now st = (false, st) := by
  unfold Migration.isMigrationNeeded
  rw [if_pos h]

theorem isMigrationNeeded_true {db : IDBModel} {profiles : List ProfileRecord}
    (now : Nat) (st : LocalStorageData) (h1 : ¬ (getSchemaVersion st ≥ 2))
    (hdb : db.profiles = .ok profiles) (hne : profiles ≠ []) :
    Migration.isMigrationNeeded (some db) now st = (true, st) := by
  unfold Migration.isMigrationNeeded
  rw [if_neg h1]
  show (match db.profiles with
    | .error _ => (false, st)
    | .ok ps =>
      if ps.length = 0 then (false, setSchemaVersion 2 now st) else (true, st))
    = (true, st)
  rw [hdb]
  show (if profiles.length = 0 then (false, setSchemaVersion 2 now st) else (true, st))
    = (true, st)
  rw [if_neg (fun hh : profiles.length = 0 => hne (List.length_eq_zero.mp hh))]

theorem runStartupMigration_of_not_needed (idb : Option IDBModel) (now : Nat)
    (uuid : Nat → String) (cnt : Nat) (st : LocalStorageData)
    (h : Migration.isMigrationNeeded idb now st = (false, st)) :
    Migration.runStartupMigration idb now uuid cnt st = st := by
  unfold Migration.runStartupMigration
  rw [h]
  simp

/-- C9: the Migration Adapter is idempotent by schema-version marker.
After a successful run the schema version is 2, the marker check
`isMigrationNeeded` answers `false` without writing, and the startup
gate makes the second run a complete no-op (the store is untouched, so
in particular no duplicate profiles or provider configs are created);
and a failing legacy read aborts the run with `success = false` and the
schema version unchanged, so a later startup retries the migration. -/
theorem c9_migration_idempotent_by_marker :
    (∀ (db : IDBModel) (now now2 : Nat) (uuid uuid2 : Nat → String) (cnt : Nat)
       (st st' : LocalStorageData),
       Migration.migrate (some db) now uuid st = (true, st') →
         getSchemaVersion st' = 2
         ∧ Migration.isMigrationNeeded (some db) now2 st' = (false, st')
         ∧ Migration.runStartupMigration (some db) now2 uuid2 cnt st' = st')
    ∧ (∀ (db : IDBModel) (now : Nat) (uuid : Nat → String)
         (st st'' : LocalStorageData),
       Migration.migrate (some db) now uuid st = (false, st'') →
         getSchemaVersion st'' = getSchemaVersion st
         ∧ (∀ (ps : List ProfileRecord) (now2 : Nat),
             ¬ (getSchemaVersion st ≥ 2) → db.profiles = .ok ps → ps ≠ [] →
             Migration.isMigrationNeeded (some db) now2 st'' = (true, st''))) := by
  constructor
  · intro db now now2 uuid uuid2 cnt st st' h
    cases hdb : db.profiles with
    | error e =>
      rw [migrate_some_error now uuid st hdb] at h
      simp only [Prod.mk.injEq] at h
      exact absurd h.1 (by simp)
    | ok profiles =>
      rw [migrate_some_ok now uuid st hdb] at h
      rcases hmc : Migration.migrateConfigs db now uuid profiles 0
          (profiles.foldl (fun s p => (saveProfile p s).2) st)
        with ⟨ok1, idx, st2⟩
      rw [hmc] at h
      cases ok1 with
      | false =>
        simp only [Prod.mk.injEq] at h
        exact absurd h.1 (by simp)
      | true =>
        simp only [Prod.mk.injEq, true_and] at h
        have hv : getSchemaVersion st' = 2 := by
          rw [← h]
          exact getSchemaVersion_setSchemaVersion 2 now _
        have hneed : Migration.isMigrationNeeded (some db) now2 st' = (false, st') :=
          isMigrationNeeded_of_ge _ now2 st' (by omega)
        exact ⟨hv, hneed,
          runStartupMigration_of_not_needed _ now2 uuid2 cnt st' hneed⟩
  · intro db now uuid st st'' h
    cases hdb : db.profiles with
    | error e =>
      rw [migrate_some_error now uuid st hdb] at h
      simp only [Prod.mk.injEq, true_and] at h
      subst h
      refine ⟨rfl, ?_⟩
      intro ps now2 hlt hok hne
      cases hok
    | ok profiles =>
      rw [migrate_some_ok now uuid st hdb] at h
      rcases hmc : Migration.migrateConfigs db now uuid profiles 0
          (profiles.foldl (fun s p => (saveProfile p s).2) st)
        with ⟨ok1, idx, st2⟩
      rw [hmc] at h
      cases ok1 with
      | true =>
        simp only [Prod.mk.injEq] at h
        exact absurd h.1 (by simp)
      | false =>
        simp only [Prod.mk.injEq, true_and] at h
        subst h
        have h22 : (Migration.migrateConfigs db now uuid profiles 0
            (profiles.foldl (fun s p => (saveProfile p s).2) st)).2.2 = st2 := by
          rw [hmc]
        have hmeta : st2.metadata = st.metadata := by
          rw [← h22, Migration.migrateConfigs_metadata,
            Migration.foldl_saveProfile_metadata]
        have hvv : getSchemaVersion st2 = getSchemaVersion st :=
          Migration.getSchemaVersion_eq_of_metadata hmeta
        refine ⟨hvv, ?_⟩
        intro ps now2 hlt hok hne
        injection hok with hps
        subst hps
        exact isMigrationNeeded_true now2 st2 (by rw [hvv]; exact hlt) hdb hne

theorem c9_migration_idempotent_by_marker_witness :
    (getSchemaVersion (Migration.migrate (some sampleIDB) 10 (fun _ => "u") emptyData).2 = 2
     ∧ Migration.isMigrationNeeded (some sampleIDB) 11
         (Migration.migrate (some sampleIDB) 10 (fun _ => "u") emptyData).2
       = (false, (Migration.migrate (some sampleIDB) 10 (fun _ => "u") emptyData).2)
     ∧ Migration.runStartupMigration (some sampleIDB) 11 (fun _ => "v") 2
         (Migration.migrate (some sampleIDB) 10 (fun _ => "u") emptyData).2
       = (Migration.migrate (some sampleIDB) 10 (fun _ => "u") emptyData).2)
    ∧ getSchemaVersion (Migration.migrate (some failingIDB) 10 (fun _ => "u") emptyData).2
      = getSchemaVersion emptyData :=
  ⟨c9_migration_idempotent_by_marker.1 sampleIDB 10 11 (fun _ => "u") (fun _ => "v")
      2 emptyData _ (by decide),
   (c9_migration_idempotent_by_marker.2 failingIDB 10 (fun _ => "u") emptyData _
      (by decide)).1⟩

end Claims

end CodelessShipMore
